import Mathlib

/-!
Verification of the segmentation-strategy core of `src/morph/morphemizer.py`.

The Python module is shallowly embedded here.  Text is modelled as a list of
Unicode code points (`Str := List Nat`); `strCodes` converts a Lean string
literal to that representation so concrete inputs stay readable.  The
character classifiers model Python's `re` character classes (`\s`, `\d`,
`\w` with `re.UNICODE`) restricted to the character repertoire this module
actually handles: every non-ASCII code point that occurs in the data is a
letter, hence a word character.  Lowercasing is modelled string-level
(`pyLower`), including Unicode's one length-changing lowercase mapping
(U+0130); its context-dependent one (U+03A3, final sigma) has no
per-position model and is excluded by hypothesis where a theorem's truth
depends on it.
-/

namespace MorphMan

/-- A Python string, as its sequence of Unicode code points.  (Code points
are plain `Nat`s; a dedicated alias would hide them from arithmetic
automation.) -/
abbrev Str := List Nat

/-- Code points of a Lean string literal, for writing concrete inputs. -/
def strCodes (s : String) : Str := s.data.map Char.toNat

/-- Python `\s` on the core whitespace code points (space, TAB, LF, VT, FF, CR). -/
def isSpaceCh (c : Nat) : Bool :=
  decide (c = 32 ∨ c = 9 ∨ c = 10 ∨ c = 11 ∨ c = 12 ∨ c = 13)

/-- Python `\d` (ASCII decimal digits, the only digits in this module's data). -/
def isDigitCh (c : Nat) : Bool :=
  decide (48 ≤ c ∧ c ≤ 57)

/-- Python `\w` with `re.UNICODE`: letters, digits and underscore.  Non-ASCII
code points in this module's repertoire (Vietnamese letters, CJK ideographs)
are all letters, hence word characters. -/
def isWordCh (c : Nat) : Bool :=
  decide ((97 ≤ c ∧ c ≤ 122) ∨ (65 ≤ c ∧ c ≤ 90) ∨ (48 ≤ c ∧ c ≤ 57) ∨ c = 95 ∨ 128 ≤ c)

/-- A character matched by `[^\s\d]`: neither whitespace nor a digit. -/
def isTokCh (c : Nat) : Bool := !isSpaceCh c && !isDigitCh c

/-- The single-code-point fragment of Python `str.lower()`: ASCII uppercase
maps down, everything else is fixed.  (Non-ASCII cased letters outside this
module's repertoire lower to a different code point of the same regex
character class; no theorem below depends on their identity, only on the
class, so fixing them is sound wherever this function is used.) -/
def pyToLower (c : Nat) : Nat :=
  if 65 ≤ c ∧ c ≤ 90 then c + 32 else c

/-- Python `str.lower()` on one code point, as the list of code points it
produces.  U+0130 (LATIN CAPITAL LETTER I WITH DOT ABOVE) is the one code
point of Unicode whose lowercase is more than one code point (U+0069
U+0307), which changes the string's length and hence tokenization; every
other code point lowers to a single code point.  The only other lowercase
mapping that is not context-free, U+03A3 (final sigma), cannot be expressed
by a per-code-point map and is excluded by hypothesis where it matters. -/
def lowerChar (c : Nat) : List Nat :=
  if 65 ≤ c ∧ c ≤ 90 then [c + 32]
  else if c = 304 then [105, 775]
  else [c]

/-- Python `str.lower()` on a string. -/
def pyLower (s : Str) : Str := s.flatMap lowerChar

/-- `Morpheme(norm, base, inflected, read, pos, subPos)` from `morph.morphemes`,
as constructed by the strategies in `morphemizer.py`. -/
structure Morpheme where
  norm : Str
  base : Str
  inflected : Str
  read : Str
  pos : Str
  subPos : Str
deriving DecidableEq, Repr

/-- The `'UNKNOWN'` tag literal. -/
def STR_UNKNOWN : Str := strCodes "UNKNOWN"

/-- The `'CJK_CHAR'` tag literal. -/
def STR_CJK_CHAR : Str := strCodes "CJK_CHAR"

/-- Whether position `i` of `s` holds a word character (out of range counts
as a non-word position, as at the ends of a Python string). -/
def wordAt (s : Str) (i : Nat) : Bool :=
  match s[i]? with
  | some c => isWordCh c
  | none => false

/-- Python regex `\b` at position `i` of `s`: the word-character status
changes between the previous position and this one. -/
def boundaryAt (s : Str) (i : Nat) : Bool :=
  (if i = 0 then false else wordAt s (i - 1)) != wordAt s i

/-- Length of the maximal run of `[^\s\d]` characters starting at `i`. -/
def runLen (s : Str) (i : Nat) : Nat :=
  ((s.drop i).takeWhile isTokCh).length

/-- Attempted match of `\b[^\s\d]+\b` anchored at position `i`: the regex
engine takes the greedy run and backtracks to the longest length `l ≥ 1`
whose end position is again a word boundary. -/
def matchLen (s : Str) (i : Nat) : Option Nat :=
  if boundaryAt s i then
    ((List.range (runLen s i)).reverse.map (· + 1)).find? (fun l => boundaryAt s (i + l))
  else
    none

/-- The scan loop of `re.findall`: try to match at `i`; on success emit the
match and resume at its end, otherwise advance one position.  `fuel` bounds
the number of steps; `s.length` steps always suffice from position `0`. -/
def findAllFrom (s : Str) : Nat → Nat → List Str
  | 0, _ => []
  | fuel + 1, i =>
    if i < s.length then
      match matchLen s i with
      | some l => ((s.drop i).take l) :: findAllFrom s fuel (i + l)
      | none => findAllFrom s fuel (i + 1)
    else []

/-- `re.findall(r"\b[^\s\d]+\b", s, re.UNICODE)` (morphemizer.py line 112). -/
def pyFindAllTokens (s : Str) : List Str := findAllFrom s s.length 0

/-- `SpaceMorphemizer._getMorphemesFromExpr` (lines 110-113): each found
token is lowercased and becomes a Morpheme with all four text fields equal
to it and both tags UNKNOWN. -/
def spaceMorphemes (expression : Str) : List Morpheme :=
  ((pyFindAllTokens expression).map (fun word => pyLower word)).map
    (fun word => ⟨word, word, word, word, STR_UNKNOWN, STR_UNKNOWN⟩)

/-- The CJK ideograph character class `zhon.hanzi.characters`: CJK Unified
Ideographs, Extension A, compatibility ideographs, `〇`, and the
supplementary-plane extensions. -/
def isCjkChar (c : Nat) : Bool :=
  decide ((0x4E00 ≤ c ∧ c ≤ 0x9FFF) ∨ (0x3400 ≤ c ∧ c ≤ 0x4DBF) ∨ c = 0x3007 ∨
    (0xF900 ≤ c ∧ c ≤ 0xFAFF) ∨ (0x20000 ≤ c ∧ c ≤ 0x2A6DF) ∨ (0x2F800 ≤ c ∧ c ≤ 0x2FA1F))

/-- `CjkCharMorphemizer._getMorphemesFromExpr` (lines 180-182):
`re.findall('[%s]' % characters, expression)` keeps exactly the CJK
characters, in order, and each becomes a CJK_CHAR morpheme. -/
def cjkCharMorphemes (expression : Str) : List Morpheme :=
  (expression.filter isCjkChar).map
    (fun c => ⟨[c], [c], [c], [c], STR_CJK_CHAR, STR_UNKNOWN⟩)

/-- A Python exception that the Vietnamese constructor's
`except (FileNotFoundError, IndexError)` clause does not catch. -/
inductive PyExc where
  | permissionError : PyExc
  | decodeError : PyExc
deriving DecidableEq, Repr

/-- `MecabMorphemizer.getDescription` (lines 92-97).  The external
`getMecabIdentity()` call is modelled by its outcome; the bare `except:`
catches any failure and substitutes the `'UNAVAILABLE'` sentinel. -/
def mecabGetDescription (idQuery : Except PyExc String) : Except PyExc String :=
  match idQuery with
  | .ok identity => .ok ("Japanese " ++ identity)
  | .error _ => .ok ("Japanese " ++ "UNAVAILABLE")

/-- Scan loop of Python `str.replace(pat, rep)`: left-to-right,
non-overlapping replacement of every occurrence.  `fuel` bounds the number
of steps; since every step consumes at least one character of the scanned
string, its length always suffices. -/
def pyReplaceFuel (pat rep : Str) : Nat → Str → Str
  | _, [] => []
  | 0, s => s
  | fuel + 1, c :: rest =>
    if !pat.isEmpty && pat.isPrefixOf (c :: rest) then
      rep ++ pyReplaceFuel pat rep fuel (rest.drop (pat.length - 1))
    else
      c :: pyReplaceFuel pat rep fuel rest

/-- Python `s.replace(pat, rep)` (used with the non-empty compound entries). -/
def pyReplace (s pat rep : Str) : Str := pyReplaceFuel pat rep s.length s

/-- `word.base.replace('_', ' ')` on one character (line 163). -/
def underscoreToSpace (c : Nat) : Nat := if c = 95 then 32 else c

/-- `word.replace(' ', '_')` on one character (line 154). -/
def spaceToUnderscore (c : Nat) : Nat := if c = 32 then 95 else c

/-- One step of a stable insertion sort by length: `w` is placed before the
first strictly longer element, hence after all earlier elements of equal
length, reproducing Python's stable `list.sort(key=len)`. -/
def insertByLen (w : Str) : List Str → List Str
  | [] => [w]
  | x :: xs => if w.length < x.length then w :: x :: xs else x :: insertByLen w xs

/-- Python `words.sort(key=len)`: stable, ascending by length. -/
def sortByLen (ws : List Str) : List Str :=
  ws.foldl (fun acc w => insertByLen w acc) []

/-- The class-level vocabulary state of `VietnameseMorphemizer` (lines
128-129): the shared `_known_words` and `_known_words_underscored` lists.
They are class attributes, so a single state is shared by every instance;
the embedding threads this one state through constructions explicitly. -/
structure VnState where
  known : List Str
  knownU : List Str
deriving DecidableEq, Repr

/-- `VietnameseMorphemizer._setKnownWords` (lines 147-154): sort ascending
by length, reverse (descending), keep only entries containing a space, and
append them with their underscored forms to the shared class lists. -/
def setKnownWords (st : VnState) (words : List Str) : VnState :=
  let kept := ((sortByLen words).reverse).filter (fun word => word.contains 32)
  ⟨st.known ++ kept, st.knownU ++ kept.map (fun word => word.map spaceToUnderscore)⟩

/-- The substitution loop of lines 158-159: replace each known compound by
its underscored form, processing the shared lists in order. -/
def vnSubstitute (known knownU : List Str) (s : Str) : Str :=
  (known.zip knownU).foldl (fun acc p => pyReplace acc p.1 p.2) s

/-- The value of `tokens` in `VietnameseMorphemizer._getMorphemesFromExpr`
(line 161): the space strategy applied to the lowercased, substituted
expression, before the base-field post-processing. -/
def vnInner (st : VnState) (expression : Str) : List Morpheme :=
  spaceMorphemes (vnSubstitute st.known st.knownU (pyLower expression))

/-- `VietnameseMorphemizer._getMorphemesFromExpr` (lines 156-165): the
inner tokens with the joining marker turned back into a space in the
`base` field only. -/
def vnMorphemes (st : VnState) (expression : Str) : List Morpheme :=
  (vnInner st expression).map
    (fun word => { word with base := word.base.map underscoreToSpace })

/-- The reserved `'#study_plan_frequency'` header sentinel (line 140). -/
def HEADER : Str := strCodes "#study_plan_frequency"

/-- Recursion of `firstDedup`, fuelled so that it stays kernel-reducible;
every step strictly shrinks the list, so its length suffices as fuel. -/
def firstDedupFuel : Nat → List Str → List Str
  | _, [] => []
  | 0, l => l
  | fuel + 1, a :: l => a :: firstDedupFuel fuel (l.filter (fun b => b ≠ a))

/-- Key sequence of `dict(zip(keys, itertools.count(0)))` (line 141):
first-occurrence order with duplicates dropped. -/
def firstDedup (ws : List Str) : List Str := firstDedupFuel ws.length ws

/-- Outcome of opening and CSV-parsing the configured vocabulary file:
the file is absent (`FileNotFoundError`), opening/reading raises some
other exception (permission denied, bad encoding, ...), or it parses into
tab-separated rows of cells. -/
inductive VnLoadOutcome where
  | fileNotFound : VnLoadOutcome
  | openError : PyExc → VnLoadOutcome
  | content : List (List Str) → VnLoadOutcome
deriving DecidableEq, Repr

/-- `VietnameseMorphemizer.__init__` (lines 131-145) acting on the shared
class state.  `FileNotFoundError` and the `IndexError`s raised by
`rows[0][0]` or by `row[0]` inside the comprehension are caught by the
`except (FileNotFoundError, IndexError)` clause and leave the state
unchanged; any other exception from opening or reading propagates.  When
the first cell is not the header sentinel and every row has a first cell,
the deduplicated first column is fed to `_setKnownWords`. -/
def vnInit (st : VnState) (outcome : VnLoadOutcome) : Except PyExc VnState :=
  match outcome with
  | .fileNotFound => .ok st
  | .openError e => .error e
  | .content rows =>
    match rows with
    | [] => .ok st
    | r0 :: _ =>
      match r0 with
      | [] => .ok st
      | c0 :: _ =>
        if c0 = HEADER then .ok st
        else if rows.all (fun r => !r.isEmpty) then
          .ok (setKnownWords st (firstDedup (rows.map (fun r => r.headD []))))
        else .ok st

/-- State of one instance's `lru_cache(maxsize=131072)` on
`Morphemizer.getMorphemesFromExpr` (lines 23-28): cached entries in
most-recently-used-first order, plus a counter of how many times the
underlying `_getMorphemesFromExpr` algorithm has run. -/
structure CacheState where
  entries : List (Str × List Morpheme)
  calls : Nat
deriving Repr

/-- The cache capacity `maxsize=131072`. -/
def CACHE_MAXSIZE : Nat := 131072

/-- `Morphemizer.getMorphemesFromExpr` (lines 23-28): on a hit the cached
sequence is returned and the entry moves to the front; on a miss the
underlying algorithm `algo` runs once, its result is cached, and the least
recently used entries beyond the capacity are evicted. -/
def cachedGet (algo : Str → List Morpheme) (st : CacheState) (e : Str) :
    List Morpheme × CacheState :=
  match st.entries.find? (fun p => p.1 == e) with
  | some p => (p.2, ⟨p :: st.entries.eraseP (fun q => q.1 == e), st.calls⟩)
  | none =>
    let r := algo e
    (r, ⟨((e, r) :: st.entries).take CACHE_MAXSIZE, st.calls + 1⟩)

/-- The five strategy classes, in the construction order of line 60. -/
inductive StrategyKind where
  | space | mecab | jieba | cjkChar | vietnamese
deriving DecidableEq, Repr

/-- `Morphemizer.getName` (lines 44-46): the class name of the strategy. -/
def strategyName : StrategyKind → String
  | .space => "SpaceMorphemizer"
  | .mecab => "MecabMorphemizer"
  | .jieba => "JiebaMorphemizer"
  | .cjkChar => "CjkCharMorphemizer"
  | .vietnamese => "VietnameseMorphemizer"

/-- A constructed strategy instance: its Python object identity is modelled
by a fresh allocation number. -/
structure MInstance where
  instId : Nat
  kind : StrategyKind
deriving DecidableEq, Repr

/-- The module-level registry state (lines 53-54): the `morphemizers`
global (None before the first call) and the `morphemizers_by_name` dict,
plus an allocation counter supplying object identities. -/
structure RegistryState where
  nextId : Nat
  morphemizers : Option (List MInstance)
  byName : List (String × MInstance)
deriving DecidableEq, Repr

/-- Python dict assignment `d[k] = v`: replace in place if the key exists,
else append. -/
def dictInsert (d : List (String × MInstance)) (k : String) (v : MInstance) :
    List (String × MInstance) :=
  if d.any (fun p => p.1 == k) then
    d.map (fun p => if p.1 == k then (k, v) else p)
  else d ++ [(k, v)]

/-- Python `d.get(k, None)`. -/
def dictGet (d : List (String × MInstance)) (k : String) : Option MInstance :=
  (d.find? (fun p => p.1 == k)).map (fun p => p.2)

/-- `getAllMorphemizers` (lines 56-65): on first call construct the five
instances in their fixed order and record them in the name map; afterwards
return the cached list unchanged. -/
def getAllMorphemizers (st : RegistryState) : List MInstance × RegistryState :=
  match st.morphemizers with
  | some ms => (ms, st)
  | none =>
    let ms : List MInstance :=
      [⟨st.nextId, .space⟩, ⟨st.nextId + 1, .mecab⟩, ⟨st.nextId + 2, .jieba⟩,
       ⟨st.nextId + 3, .cjkChar⟩, ⟨st.nextId + 4, .vietnamese⟩]
    (ms, ⟨st.nextId + 5, some ms,
          ms.foldl (fun acc m => dictInsert acc (strategyName m.kind) m) st.byName⟩)

/-- `getMorphemizerByName` (lines 67-70): ensure the registry is built,
then look the name up in the dict, absent names giving `none`. -/
def getMorphemizerByName (st : RegistryState) (name : String) :
    Option MInstance × RegistryState :=
  let st1 := (getAllMorphemizers st).2
  (dictGet st1.byName name, st1)

/-- The registry state at module load: no list built, empty name map. -/
def initialRegistry : RegistryState := ⟨0, none, []⟩

/-- Default morpheme for out-of-range `List.getD` indexing in statements. -/
def dummyM : Morpheme := ⟨[], [], [], [], [], []⟩

end MorphMan

deriving instance DecidableEq for Except

namespace MorphMan

/-- C5: the space strategy on `"The Quick fox2 jumps"` yields exactly the
bases `["the", "quick", "jumps"]` in order; the token `"fox2"` is skipped
entirely, not truncated, because it contains a digit. -/
theorem space_segment_example :
    (spaceMorphemes (strCodes "The Quick fox2 jumps")).map Morpheme.base =
      [strCodes "the", strCodes "quick", strCodes "jumps"] := by decide

/-- C6: the CJK-character strategy on `"abc中文!"` yields exactly two
morphemes, bases `"中"` then `"文"`, each with primary tag CJK_CHAR and
secondary tag UNKNOWN; all non-CJK characters are dropped. -/
theorem cjk_segment_example :
    cjkCharMorphemes (strCodes "abc中文!") =
      [⟨strCodes "中", strCodes "中", strCodes "中", strCodes "中", STR_CJK_CHAR, STR_UNKNOWN⟩,
       ⟨strCodes "文", strCodes "文", strCodes "文", strCodes "文", STR_CJK_CHAR, STR_UNKNOWN⟩] := by
  decide

/-- C3: with the vocabulary entries `"bánh mì"` and `"bánh"` both loaded,
the Vietnamese strategy segments `"tôi ăn bánh mì"` into bases
`["tôi", "ăn", "bánh mì"]`: a single morpheme with base `"bánh mì"` at that
position, because the longer entry is substituted first. -/
theorem vn_longest_match :
    (vnMorphemes (setKnownWords ⟨[], []⟩ [strCodes "bánh mì", strCodes "bánh"])
        (strCodes "tôi ăn bánh mì")).map Morpheme.base =
      [strCodes "tôi", strCodes "ăn", strCodes "bánh mì"] := by decide

/-- C9: the Japanese strategy's description never raises: it returns
successfully for every outcome of the external identity query, and on any
failure of that query the result embeds the UNAVAILABLE sentinel in place
of the identity. -/
theorem mecab_description_never_raises :
    (∀ q : Except PyExc String, ∃ s, mecabGetDescription q = .ok s) ∧
    (∀ ex : PyExc, mecabGetDescription (.error ex) = .ok "Japanese UNAVAILABLE") := by
  constructor
  · intro q
    cases q with
    | ok s => exact ⟨"Japanese " ++ s, rfl⟩
    | error e => exact ⟨"Japanese UNAVAILABLE", rfl⟩
  · intro ex
    rfl

/-- C1 (counterexample): with zero known compounds the Vietnamese strategy
is NOT element-wise equal to the space strategy on every expression: on
`"_"` the Vietnamese post-processing turns the base `"_"` into `" "`,
while the space strategy keeps `"_"`. -/
theorem vn_empty_vocab_ce :
    vnMorphemes ⟨[], []⟩ (strCodes "_") ≠ spaceMorphemes (strCodes "_") := by decide

/-- C2 (counterexample): a vocabulary file that exists but is unreadable is
not a silent failure mode: the exception raised while opening it (e.g. a
permission error) is not in the constructor's
`except (FileNotFoundError, IndexError)` clause, so construction
propagates it to the caller. -/
theorem vnInit_unreadable_raises :
    vnInit ⟨[], []⟩ (.openError .permissionError) = .error .permissionError := rfl

/-- C2 (amended): for the failure modes the constructor's except clause
does cover - file absent, empty file, any row without a first cell, or the
reserved header sentinel in the first cell - construction completes without
a visible error and leaves the shared vocabulary unchanged (so empty when
initially empty). -/
theorem vnInit_silent_degradation (st : VnState) (o : VnLoadOutcome)
    (h : o = .fileNotFound ∨ ∃ rows, o = .content rows ∧
      (rows = [] ∨ [] ∈ rows ∨ ∃ cs rest, rows = (HEADER :: cs) :: rest)) :
    vnInit st o = .ok st := by
  rcases h with rfl | ⟨rows, rfl, hrows⟩
  · rfl
  · rcases hrows with rfl | hmem | ⟨cs, rest, rfl⟩
    · rfl
    · cases rows with
      | nil => rfl
      | cons r0 rest =>
        cases r0 with
        | nil => rfl
        | cons c0 cs =>
          have hrest : ([] : List Str) ∈ rest := by
            rcases List.mem_cons.mp hmem with h1 | h2
            · exact absurd h1.symm (List.cons_ne_nil c0 cs)
            · exact h2
          have hall : ((c0 :: cs) :: rest).all (fun r => !r.isEmpty) = false := by
            rw [List.all_eq_false]
            exact ⟨[], List.mem_cons_of_mem _ hrest, by simp⟩
          by_cases hc : c0 = HEADER
          · simp [vnInit, hc]
          · simp [vnInit, hc, hall]
    · simp [vnInit]

/-- C2 (witness): the absent-file mode, concretely. -/
theorem vnInit_silent_degradation_witness :
    (VnLoadOutcome.fileNotFound = VnLoadOutcome.fileNotFound ∨
      ∃ rows, VnLoadOutcome.fileNotFound = .content rows ∧
        (rows = [] ∨ [] ∈ rows ∨ ∃ cs rest, rows = (HEADER :: cs) :: rest)) ∧
    vnInit ⟨[], []⟩ .fileNotFound = .ok ⟨[], []⟩ :=
  ⟨Or.inl rfl, vnInit_silent_degradation ⟨[], []⟩ .fileNotFound (Or.inl rfl)⟩

/-- Post-processing a mapped morpheme list commutes with safe indexing:
the `i`-th element of the post-processed tokens is the `i`-th inner token
with only its base field rewritten (out-of-range indices give the default
on both sides). -/
theorem getD_map_base_only (l : List Morpheme) (i : Nat) :
    (l.map (fun word => { word with base := word.base.map underscoreToSpace })).getD i dummyM =
      { l.getD i dummyM with base := (l.getD i dummyM).base.map underscoreToSpace } := by
  induction l generalizing i with
  | nil => simp [dummyM]
  | cons x xs ih =>
    cases i with
    | zero => simp
    | succ n => simpa using ih n

/-- C4: every morpheme the Vietnamese strategy produces is the
corresponding morpheme of the space strategy run (on the substituted,
lowercased expression) with the joining marker replaced by a space in the
base field ONLY - the normalized, inflected and reading fields are exactly
the inner morpheme's, still containing the marker. -/
theorem vn_postprocess_base_only (st : VnState) (e : Str) (i : Nat) :
    (vnMorphemes st e).getD i dummyM =
      { (vnInner st e).getD i dummyM with
        base := ((vnInner st e).getD i dummyM).base.map underscoreToSpace } := by
  unfold vnMorphemes
  exact getD_map_base_only _ _

/-- C8: a second `getAllMorphemizers` call returns the very same five
instances (same object identities) in the same order and leaves the
registry state untouched; the first call builds exactly five instances;
and `getMorphemizerByName` on the unregistered name `"Klingon"` returns
`none` rather than raising. -/
theorem registry_stable :
    (∀ st : RegistryState,
      getAllMorphemizers (getAllMorphemizers st).2 = getAllMorphemizers st) ∧
    (getAllMorphemizers initialRegistry).1.length = 5 ∧
    (getMorphemizerByName (getAllMorphemizers initialRegistry).2 "Klingon").1 = none := by
  refine ⟨?_, by decide, by decide⟩
  intro st
  cases h : st.morphemizers with
  | some ms => simp [getAllMorphemizers, h]
  | none => simp [getAllMorphemizers, h]

/-- C7: for any underlying algorithm, cache state and expression, a second
consecutive `getMorphemesFromExpr(e)` call returns the same morpheme
sequence as the first without running the underlying algorithm again (the
call counter is unchanged), and the first call itself runs it at most
once. -/
theorem segment_cached_idempotent (algo : Str → List Morpheme) (st : CacheState) (e : Str) :
    (cachedGet algo (cachedGet algo st e).2 e).1 = (cachedGet algo st e).1 ∧
    (cachedGet algo (cachedGet algo st e).2 e).2.calls = (cachedGet algo st e).2.calls ∧
    (cachedGet algo st e).2.calls ≤ st.calls + 1 := by
  cases hfind : st.entries.find? (fun p => p.1 == e) with
  | some p =>
    have hp := List.find?_some hfind
    simp only [cachedGet, hfind]
    rw [List.find?_cons_of_pos (p := fun (q : Str × List Morpheme) => q.1 == e) _ hp]
    exact ⟨rfl, rfl, Nat.le_succ st.calls⟩
  | none =>
    simp only [cachedGet, hfind]
    rw [show CACHE_MAXSIZE = 131071 + 1 from rfl, List.take_succ_cons]
    rw [List.find?_cons_of_pos (p := fun (q : Str × List Morpheme) => q.1 == e) _ (by simp)]
    exact ⟨rfl, rfl, Nat.le_refl _⟩

/-- C10: the vocabulary lists are class-level state shared by all
instances: constructing a further Vietnamese instance over a valid
vocabulary file (first cell present and not the header sentinel, every row
with a first cell) APPENDS the file's compound entries to the existing
shared lists - in index correspondence with their underscored forms - so
the state every instance reads is the accumulated combined vocabulary,
not per-instance state. -/
theorem vn_shared_vocab_accumulates (st : VnState) (c0 : Str) (r0tail : List Str)
    (rest : List (List Str)) (hc0 : c0 ≠ HEADER) (hne : ∀ r ∈ rest, r ≠ []) :
    ∃ entries : List Str,
      vnInit st (.content ((c0 :: r0tail) :: rest)) =
        .ok ⟨st.known ++ entries, st.knownU ++ entries.map (fun w => w.map spaceToUnderscore)⟩ := by
  have hall : ((c0 :: r0tail) :: rest).all (fun r => !r.isEmpty) = true := by
    rw [List.all_eq_true]
    intro r hr
    rcases List.mem_cons.mp hr with rfl | h2
    · simp
    · simp [List.isEmpty_iff, hne r h2]
  refine ⟨((sortByLen (firstDedup (((c0 :: r0tail) :: rest).map (fun r => r.headD [])))).reverse).filter
      (fun w => w.contains 32), ?_⟩
  simp [vnInit, hc0, hall, setKnownWords]

/-- Lowercasing commutes with the whitespace class. -/
theorem pyToLower_isSpace (c : Nat) : isSpaceCh (pyToLower c) = isSpaceCh c := by
  unfold pyToLower isSpaceCh
  split
  · exact decide_eq_decide.mpr (by omega)
  · rfl

/-- Lowercasing commutes with the digit class. -/
theorem pyToLower_isDigit (c : Nat) : isDigitCh (pyToLower c) = isDigitCh c := by
  unfold pyToLower isDigitCh
  split
  · exact decide_eq_decide.mpr (by omega)
  · rfl

/-- Lowercasing commutes with the word-character class. -/
theorem pyToLower_isWord (c : Nat) : isWordCh (pyToLower c) = isWordCh c := by
  unfold pyToLower isWordCh
  split
  · exact decide_eq_decide.mpr (by omega)
  · rfl

/-- Lowercasing commutes with the `[^\s\d]` class. -/
theorem pyToLower_isTok (c : Nat) : isTokCh (pyToLower c) = isTokCh c := by
  simp [isTokCh, pyToLower_isSpace, pyToLower_isDigit]

/-- ASCII-lowercased code points lower to themselves, so `lowerChar`
absorbs a preceding `pyToLower`. -/
theorem lowerChar_pyToLower (c : Nat) : lowerChar (pyToLower c) = lowerChar c := by
  unfold pyToLower lowerChar
  by_cases h : 65 ≤ c ∧ c ≤ 90
  · simp only [if_pos h]
    rw [if_neg (by omega), if_neg (by omega)]
  · simp only [if_neg h]

/-- Lowercasing a string absorbs a preceding per-code-point ASCII lowering. -/
theorem pyLower_map_pyToLower (w : Str) : pyLower (w.map pyToLower) = pyLower w := by
  induction w with
  | nil => rfl
  | cons c t ih => simp [pyLower, lowerChar_pyToLower, ih, List.flatMap_cons] at ih ⊢; rw [ih]

/-- Away from U+0130, lowering one code point yields one code point. -/
theorem lowerChar_eq_single (c : Nat) (h : c ≠ 304) : lowerChar c = [pyToLower c] := by
  unfold lowerChar pyToLower
  by_cases h1 : 65 ≤ c ∧ c ≤ 90
  · simp only [if_pos h1]
  · simp only [if_neg h1]
    rw [if_neg h]

/-- On strings without U+0130, Python lowercasing is the per-code-point
ASCII lowering. -/
theorem pyLower_eq_map (s : Str) (h : (304 : Nat) ∉ s) : pyLower s = s.map pyToLower := by
  induction s with
  | nil => rfl
  | cons c t ih =>
    have hc : c ≠ 304 := fun hc => h (hc ▸ List.mem_cons_self c t)
    have ht : (304 : Nat) ∉ t := fun hm => h (List.mem_cons_of_mem c hm)
    simp only [pyLower, List.flatMap_cons, List.map_cons] at ih ⊢
    rw [lowerChar_eq_single c hc, ih ht]
    rfl

/-- Only the underscore lowercases to a string containing the underscore. -/
theorem mem_lowerChar_95 {c : Nat} (h : (95 : Nat) ∈ lowerChar c) : c = 95 := by
  unfold lowerChar at h
  by_cases h1 : 65 ≤ c ∧ c ≤ 90
  · rw [if_pos h1] at h
    simp at h
    omega
  · rw [if_neg h1] at h
    by_cases h2 : c = 304
    · rw [if_pos h2] at h
      simp at h
    · rw [if_neg h2] at h
      simp at h
      omega

/-- Lowercasing an underscore-free string yields an underscore-free string. -/
theorem pyLower_no95 (w : Str) (h : (95 : Nat) ∉ w) : (95 : Nat) ∉ pyLower w := by
  intro hmem
  rcases List.mem_flatMap.mp hmem with ⟨c, hc, hin⟩
  exact h (mem_lowerChar_95 hin ▸ hc)

/-- Word-character positions are unchanged by lowercasing the string. -/
theorem wordAt_map (s : Str) (i : Nat) : wordAt (s.map pyToLower) i = wordAt s i := by
  unfold wordAt
  rw [List.getElem?_map]
  cases s[i]? <;> simp [pyToLower_isWord]

/-- Word boundaries are unchanged by lowercasing the string. -/
theorem boundaryAt_map (s : Str) (i : Nat) :
    boundaryAt (s.map pyToLower) i = boundaryAt s i := by
  simp [boundaryAt, wordAt_map]

/-- Greedy `[^\s\d]+` run lengths are unchanged by lowercasing. -/
theorem runLen_map (s : Str) (i : Nat) : runLen (s.map pyToLower) i = runLen s i := by
  unfold runLen
  rw [← List.map_drop, List.takeWhile_map, List.length_map]
  have hcomp : isTokCh ∘ pyToLower = isTokCh := funext pyToLower_isTok
  rw [hcomp]

/-- Anchored match lengths are unchanged by lowercasing. -/
theorem matchLen_map (s : Str) (i : Nat) : matchLen (s.map pyToLower) i = matchLen s i := by
  unfold matchLen
  rw [boundaryAt_map, runLen_map]
  have hfun : (fun l => boundaryAt (s.map pyToLower) (i + l)) =
      (fun l => boundaryAt s (i + l)) := funext (fun l => boundaryAt_map s (i + l))
  rw [hfun]

/-- The token scan of a lowercased string yields the lowercased tokens. -/
theorem findAllFrom_map (s : Str) :
    ∀ fuel i, findAllFrom (s.map pyToLower) fuel i =
      (findAllFrom s fuel i).map (List.map pyToLower) := by
  intro fuel
  induction fuel with
  | zero => intro i; rfl
  | succ n ih =>
    intro i
    unfold findAllFrom
    rw [List.length_map, matchLen_map]
    by_cases hi : i < s.length
    · rw [if_pos hi, if_pos hi]
      cases hm : matchLen s i with
      | some l =>
        simp only [← List.map_drop, ← List.map_take, List.map_cons, ih]
      | none => exact ih (i + 1)
    · rw [if_neg hi, if_neg hi]
      rfl

/-- `pyFindAllTokens` of a lowercased string yields the lowercased tokens. -/
theorem tokens_map_lower (s : Str) :
    pyFindAllTokens (s.map pyToLower) = (pyFindAllTokens s).map (List.map pyToLower) := by
  unfold pyFindAllTokens
  rw [List.length_map, findAllFrom_map]

/-- The space strategy is insensitive to a per-code-point ASCII
pre-lowercasing of its input, because it lowercases each token itself. -/
theorem spaceMorphemes_lower (e : Str) :
    spaceMorphemes (e.map pyToLower) = spaceMorphemes e := by
  unfold spaceMorphemes
  rw [tokens_map_lower]
  congr 1
  rw [List.map_map]
  exact List.map_congr_left (fun w _ => pyLower_map_pyToLower w)

/-- Every character of every found token occurs in the scanned string. -/
theorem findAllFrom_chars_mem (s : Str) :
    ∀ fuel i w, w ∈ findAllFrom s fuel i → ∀ c ∈ w, c ∈ s := by
  intro fuel
  induction fuel with
  | zero => intro i w hw; simp [findAllFrom] at hw
  | succ n ih =>
    intro i w hw c hc
    unfold findAllFrom at hw
    by_cases hi : i < s.length
    · rw [if_pos hi] at hw
      cases hm : matchLen s i with
      | some l =>
        rw [hm] at hw
        rcases List.mem_cons.mp hw with rfl | h2
        · exact List.drop_subset i s (List.take_subset l _ hc)
        · exact ih _ _ h2 c hc
      | none =>
        rw [hm] at hw
        exact ih _ _ hw c hc
    · rw [if_neg hi] at hw
      simp at hw

/-- C1 (amended): with zero known compounds, the Vietnamese strategy agrees
element-wise with the plain space strategy, and raises no error, on every
expression that contains no underscore (the joining marker, which the
Vietnamese post-processing would rewrite in the base field), no U+0130
(`İ`, the one code point whose lowercase is two code points, which changes
tokenization between lowering-then-tokenizing and tokenizing-then-lowering),
and no U+03A3 (`Σ`, whose lowercase depends on context, so lowering the
whole expression and lowering each token can disagree).  On that domain the
pre-lowercasing is per-code-point and context-free, so it is absorbed by
the space strategy's own per-token lowercasing, and the base-field
post-processing is the identity. -/
theorem vn_empty_vocab_eq_space (e : Str) (h95 : (95 : Nat) ∉ e)
    (h304 : (304 : Nat) ∉ e) (_h931 : (931 : Nat) ∉ e) :
    vnMorphemes ⟨[], []⟩ e = spaceMorphemes e := by
  unfold vnMorphemes vnInner
  have hsub : vnSubstitute (VnState.mk [] []).known (VnState.mk [] []).knownU
      (pyLower e) = pyLower e := rfl
  rw [hsub, pyLower_eq_map e h304, spaceMorphemes_lower]
  have key : ∀ m ∈ spaceMorphemes e,
      (fun word => { word with base := word.base.map underscoreToSpace }) m = id m := by
    intro m hm
    unfold spaceMorphemes at hm
    rcases List.mem_map.mp hm with ⟨w, hw, rfl⟩
    rcases List.mem_map.mp hw with ⟨t, ht, rfl⟩
    have h95t : (95 : Nat) ∉ t :=
      fun hc => h95 (findAllFrom_chars_mem e e.length 0 t ht 95 hc)
    have hno : (95 : Nat) ∉ pyLower t := pyLower_no95 t h95t
    have hbase : (pyLower t).map underscoreToSpace = pyLower t := by
      have h2 : ∀ c ∈ pyLower t, underscoreToSpace c = id c := by
        intro c hc
        unfold underscoreToSpace
        rw [if_neg]
        · rfl
        · intro hc95
          subst hc95
          exact hno hc
      rw [List.map_congr_left h2, List.map_id]
    simp only [hbase]
    rfl
  rw [List.map_congr_left key, List.map_id]

/-- C1 (witness): the two strategies agree on `"hello world"`. -/
theorem vn_empty_vocab_eq_space_witness :
    ((95 : Nat) ∉ strCodes "hello world") ∧ ((304 : Nat) ∉ strCodes "hello world") ∧
    ((931 : Nat) ∉ strCodes "hello world") ∧
    vnMorphemes ⟨[], []⟩ (strCodes "hello world") = spaceMorphemes (strCodes "hello world") :=
  ⟨by decide, by decide, by decide,
   vn_empty_vocab_eq_space (strCodes "hello world") (by decide) (by decide) (by decide)⟩

/-- C10 (witness): a second instance constructed over a one-entry file
appends `"xin chào"` to a shared state already holding `"bánh mì"`. -/
theorem vn_shared_vocab_accumulates_witness :
    (strCodes "xin chào" ≠ HEADER) ∧ (∀ r ∈ ([] : List (List Str)), r ≠ []) ∧
    ∃ entries : List Str,
      vnInit ⟨[strCodes "bánh mì"], [strCodes "bánh_mì"]⟩
          (.content [[strCodes "xin chào"]]) =
        .ok ⟨[strCodes "bánh mì"] ++ entries,
             [strCodes "bánh_mì"] ++ entries.map (fun w => w.map spaceToUnderscore)⟩ :=
  ⟨by decide, by simp,
   vn_shared_vocab_accumulates ⟨[strCodes "bánh mì"], [strCodes "bánh_mì"]⟩
     (strCodes "xin chào") [] [] (by decide) (by simp)⟩

end MorphMan
